import Mathlib

/-!
Shallow embedding of the matching service
(`src/backend/matching-service/src/matchingService.ts`) and verification of
the specification's claims about it.

The Prisma store is modelled as an in-memory list of records kept in creation
order; `findFirst` is `List.find?`, `update` maps over the list touching the
records with the given `recordId`, `delete` filters them out, `create` appends.
Socket notifications and delayed confirm-timeout messages are ghost logs
appended to the state. `uuidv4` and `fetchRandomQuestion` are inputs:
the fresh room string is a parameter, the question bank is an oracle
`String → String → Option Nat` (difficulty, topic ↦ questionId).
-/

namespace LuckyJinx

/-- A row of the `matchRecord` table; fields as in the Prisma model used by
`matchingService.ts`.  `matchedUserId` and `questionId` are nullable. -/
structure MatchRecord where
  recordId : Nat
  userId : String
  topic : String
  difficulty : String
  socketId : String
  matched : Bool
  matchedUserId : Option String
  isPending : Bool
  isConfirmed : Bool
  isArchived : Bool
  roomNumber : String
  questionId : Option Nat
deriving DecidableEq

/-- A row of the `sessionHistory` table. -/
structure SessionHistoryRecord where
  userOneId : String
  userTwoId : String
  roomNumber : String
  questionId : Nat
  isOngoing : Bool
deriving DecidableEq

/-- One socket emission: target socket id and event name. -/
structure Notif where
  socketId : String
  event : String
deriving DecidableEq

/-- The observable state: the two tables, plus ghost logs of the notifications
emitted (`io.to(..).emit(..)`) and of the confirm-timeout messages scheduled
(`sendConfirmDelayedTimeoutMessage`, logged by target record id).
`nextRecordId` models Prisma's autoincrement id. -/
structure MatchState where
  records : List MatchRecord
  history : List SessionHistoryRecord
  notifs : List Notif
  scheduled : List Nat
  nextRecordId : Nat
deriving DecidableEq

/-- `prisma.matchRecord.update({where: {recordId}, data})`: rewrite the
records carrying the given id. -/
def updateById (rid : Nat) (f : MatchRecord → MatchRecord) (l : List MatchRecord) :
    List MatchRecord :=
  l.map (fun r => if r.recordId = rid then f r else r)

/-- `prisma.matchRecord.delete({where: {recordId}})`. -/
def deleteById (rid : Nat) (l : List MatchRecord) : List MatchRecord :=
  l.filter (fun r => r.recordId ≠ rid)

/-- Archival update `data: { isArchived: true }`. -/
def archiveById (rid : Nat) (l : List MatchRecord) : List MatchRecord :=
  updateById rid (fun r => { r with isArchived := true }) l

/-- Predicate of the duplicate-request lookup in `handleUserRequest`:
`{ userId, isPending: false, isArchived: false }`. -/
def dupCheck (userId : String) (r : MatchRecord) : Bool :=
  r.userId = userId && !r.isPending && !r.isArchived

/-- The `excludedUserIds` list of `handleUserRequest`: the requester plus the
counterpart of every sessionHistory row mentioning the requester. -/
def excludedUserIds (userId : String) (hist : List SessionHistoryRecord) : List String :=
  userId :: (hist.filter (fun h => h.userOneId = userId || h.userTwoId = userId)).map
    (fun h => if h.userOneId = userId then h.userTwoId else h.userOneId)

/-- Tiers 1 and 2 of the candidate search (same topic, exclusion by
`notIn: excludedUserIds`); `anyDiff = false` also constrains `difficulty`. -/
def tierExcl (topic difficulty : String) (excl : List String) (anyDiff : Bool)
    (r : MatchRecord) : Bool :=
  r.topic = topic && (anyDiff || r.difficulty = difficulty) && !r.matched &&
    !r.isArchived && !(excl.contains r.userId)

/-- Tiers 3 and 4 of the candidate search (same topic, excluding only the
requester via `not: userId`). -/
def tierSelf (topic difficulty userId : String) (anyDiff : Bool) (r : MatchRecord) : Bool :=
  r.topic = topic && (anyDiff || r.difficulty = difficulty) && !r.matched &&
    !r.isArchived && !(r.userId = userId)

/-- The four sequential `findFirst` attempts of `handleUserRequest`
(lines 96–152): each later tier runs only when the earlier one returned
`null`. -/
def selectCandidate (records : List MatchRecord) (hist : List SessionHistoryRecord)
    (userId topic difficulty : String) : Option MatchRecord :=
  match records.find? (tierExcl topic difficulty (excludedUserIds userId hist) false) with
  | some r => some r
  | none =>
    match records.find? (tierExcl topic difficulty (excludedUserIds userId hist) true) with
    | some r => some r
    | none =>
      match records.find? (tierSelf topic difficulty userId false) with
      | some r => some r
      | none => records.find? (tierSelf topic difficulty userId true)

/-- `handleUserRequest` (lines 47–222).  `fetchQ` stands for
`fetchRandomQuestion(difficulty, topic)`, `newRoom` for the `uuidv4()` room. -/
def handleUserRequest (fetchQ : String → String → Option Nat) (newRoom : String)
    (userId topic difficulty socketId : String) (s : MatchState) : MatchState :=
  match s.records.find? (dupCheck userId) with
  | some user =>
    if user.socketId = socketId then s
    else
      { s with
        notifs := s.notifs ++ [⟨user.socketId, "duplicate socket"⟩],
        records := updateById user.recordId (fun r => { r with socketId := socketId })
          s.records }
  | none =>
    match selectCandidate s.records s.history userId topic difficulty with
    | some existingMatch =>
      match fetchQ difficulty topic with
      | none =>
        { s with
          notifs := s.notifs ++
            [⟨socketId, "question_error"⟩, ⟨existingMatch.socketId, "question_error"⟩],
          records := deleteById existingMatch.recordId s.records }
      | some q =>
        let current : MatchRecord :=
          { recordId := s.nextRecordId, userId := userId, topic := topic,
            difficulty := difficulty, socketId := socketId, matched := true,
            matchedUserId := some existingMatch.userId, isPending := true,
            isConfirmed := false, isArchived := false, roomNumber := newRoom,
            questionId := some q }
        { s with
          records := updateById existingMatch.recordId
            (fun r => { r with matched := true, matchedUserId := some userId,
                               isPending := true }) s.records ++ [current],
          nextRecordId := s.nextRecordId + 1,
          notifs := s.notifs ++
            [⟨socketId, "matched"⟩, ⟨existingMatch.socketId, "matched"⟩],
          scheduled := s.scheduled ++ [s.nextRecordId, existingMatch.recordId] }
    | none =>
      { s with
        records := s.records ++
          [{ recordId := s.nextRecordId, userId := userId, topic := topic,
             difficulty := difficulty, socketId := socketId, matched := false,
             matchedUserId := none, isPending := false, isConfirmed := false,
             isArchived := false, roomNumber := newRoom, questionId := none }],
        nextRecordId := s.nextRecordId + 1 }

/-- Lookup predicate for the caller's pending record:
`{ userId, isPending: true, isArchived: false }`. -/
def pendingUser (userId : String) (r : MatchRecord) : Bool :=
  r.userId = userId && r.isPending && !r.isArchived

/-- Lookup predicate for the counterpart's pending record:
`{ matchedUserId: userId, isPending: true, isArchived: false }`. -/
def pendingMatched (userId : String) (r : MatchRecord) : Bool :=
  r.matchedUserId = some userId && r.isPending && !r.isArchived

/-- `handleMatchingConfirm` (lines 224–310). -/
def handleMatchingConfirm (userId : String) (s : MatchState) : MatchState :=
  match s.records.find? (pendingUser userId), s.records.find? (pendingMatched userId) with
  | none, none => s
  | none, some mr =>
    { s with records := archiveById mr.recordId s.records,
             notifs := s.notifs ++ [⟨mr.socketId, "other_declined"⟩] }
  | some ur, none =>
    { s with records := archiveById ur.recordId s.records,
             notifs := s.notifs ++ [⟨ur.socketId, "other_declined"⟩] }
  | some ur, some mr =>
    if ur.isConfirmed then s
    else
      let confirmed := updateById ur.recordId (fun r => { r with isConfirmed := true })
        s.records
      if mr.isConfirmed then
        { s with
          records := archiveById ur.recordId (archiveById mr.recordId confirmed),
          history := s.history ++
            [⟨ur.userId, mr.userId, mr.roomNumber,
              (mr.questionId.getD (ur.questionId.getD 0)), true⟩],
          notifs := s.notifs ++
            [⟨ur.socketId, "matching_success"⟩, ⟨mr.socketId, "matching_success"⟩] }
      else
        { s with records := confirmed,
                 notifs := s.notifs ++ [⟨mr.socketId, "other_accepted"⟩] }

/-- `handleMatchingDecline` (lines 312–380). -/
def handleMatchingDecline (userId : String) (s : MatchState) : MatchState :=
  match s.records.find? (pendingUser userId), s.records.find? (pendingMatched userId) with
  | none, none => s
  | none, some mr =>
    { s with records := archiveById mr.recordId s.records,
             notifs := s.notifs ++
               [⟨mr.socketId, "other_declined"⟩, ⟨mr.socketId, "matching_fail"⟩] }
  | some ur, none =>
    { s with records := archiveById ur.recordId s.records,
             notifs := s.notifs ++
               [⟨ur.socketId, "other_declined"⟩, ⟨ur.socketId, "matching_fail"⟩] }
  | some ur, some mr =>
    { s with
      records := archiveById mr.recordId (archiveById ur.recordId s.records),
      notifs := s.notifs ++
        [⟨mr.socketId, "other_declined"⟩, ⟨ur.socketId, "matching_fail"⟩,
         ⟨mr.socketId, "matching_fail"⟩] }

/-- Lookup predicate of `handleTimeout`:
`{ userId, isPending: false, isArchived: false, socketId }`. -/
def timeoutLookup (userId socketId : String) (r : MatchRecord) : Bool :=
  r.userId = userId && !r.isPending && !r.isArchived && r.socketId = socketId

/-- `handleTimeout` (lines 382–400). -/
def handleTimeout (userId socketId : String) (s : MatchState) : MatchState :=
  match s.records.find? (timeoutLookup userId socketId) with
  | none => s
  | some result =>
    { s with
      records := archiveById result.recordId s.records,
      notifs := s.notifs ++ (if result.matched then [] else [⟨socketId, "timeout"⟩]) }

/-- `handleConfirmTimeout` (lines 402–427); the record is loaded by unique id. -/
def handleConfirmTimeout (recordId : Nat) (s : MatchState) : MatchState :=
  match s.records.find? (fun r => r.recordId = recordId) with
  | none => s
  | some result =>
    if result.isArchived then s
    else
      { s with
        records := archiveById recordId s.records,
        notifs := s.notifs ++ [⟨result.socketId, "matching_fail"⟩] }

/-- `handleDisconnected` (lines 429–439): `updateMany({where: {socketId}},
{isArchived: true})`, no notification. -/
def handleDisconnected (socketId : String) (s : MatchState) : MatchState :=
  { s with
    records := s.records.map
      (fun r => if r.socketId = socketId then { r with isArchived := true } else r) }

/-! ### Generic store lemmas -/

/-- `find?` commutes with a record rewrite that cannot change the predicate. -/
theorem find?_map_invariant {p : MatchRecord → Bool} {g : MatchRecord → MatchRecord}
    (h : ∀ r, p (g r) = p r) (l : List MatchRecord) :
    (l.map g).find? p = (l.find? p).map g := by
  rw [List.find?_map]
  have hpg : p ∘ g = p := funext h
  rw [hpg]

/-! ### C3: the four-tier candidate search -/

/-- The claim's exclusion set for tiers 1–2: the requester together with every
previous counterpart recorded in SessionHistory, as `userOne` or `userTwo`. -/
def isExcluded (userId : String) (hist : List SessionHistoryRecord) (x : String) : Bool :=
  x = userId || hist.any (fun h => (h.userOneId = userId && h.userTwoId = x) ||
    (h.userTwoId = userId && h.userOneId = x))

/-- One tier as the claim words it: non-archived, `matched = false`, same
topic, optionally same difficulty, user id not excluded. -/
def specTier (topic : String) (difficulty : Option String) (excluded : String → Bool)
    (r : MatchRecord) : Bool :=
  !r.isArchived && !r.matched && r.topic = topic &&
    (match difficulty with
     | some d => r.difficulty = d
     | none => true) &&
    !(excluded r.userId)

/-- Candidate selection as the claim describes it: four ordered tiers, first
non-empty tier wins. -/
def selectCandidateSpec (records : List MatchRecord) (hist : List SessionHistoryRecord)
    (userId topic difficulty : String) : Option MatchRecord :=
  (records.find? (specTier topic (some difficulty) (isExcluded userId hist))).or
  ((records.find? (specTier topic none (isExcluded userId hist))).or
  ((records.find? (specTier topic (some difficulty) (fun x => x = userId))).or
   (records.find? (specTier topic none (fun x => x = userId)))))

/-- The code's `excludedUserIds` list recognises exactly the claim's exclusion
set. -/
theorem contains_excludedUserIds (userId : String) (hist : List SessionHistoryRecord)
    (x : String) :
    (excludedUserIds userId hist).contains x = isExcluded userId hist x := by
  rw [Bool.eq_iff_iff]
  unfold excludedUserIds isExcluded
  simp only [List.contains, List.elem_iff, List.mem_cons, List.mem_map, List.mem_filter,
    List.any_eq_true, Bool.or_eq_true, Bool.and_eq_true, decide_eq_true_eq]
  apply or_congr Iff.rfl
  constructor
  · rintro ⟨h, ⟨hmem, hp⟩, hf⟩
    refine ⟨h, hmem, ?_⟩
    by_cases h1 : h.userOneId = userId
    · rw [if_pos h1] at hf
      exact Or.inl ⟨h1, hf⟩
    · rw [if_neg h1] at hf
      rcases hp with hp | hp
      · exact absurd hp h1
      · exact Or.inr ⟨hp, hf⟩
  · rintro ⟨h, hmem, hq | hq⟩
    · exact ⟨h, ⟨hmem, Or.inl hq.1⟩, by rw [if_pos hq.1]; exact hq.2⟩
    · refine ⟨h, ⟨hmem, Or.inr hq.1⟩, ?_⟩
      by_cases h1 : h.userOneId = userId
      · rw [if_pos h1, hq.1, ← hq.2, h1]
      · rw [if_neg h1]; exact hq.2

/-- C3: candidate selection searches non-archived, `matched = false` records in
exactly the four ordered tiers described by the claim — same topic and same
difficulty excluding requester and previous counterparts, same topic any
difficulty with the same exclusions, then the same two tiers excluding only the
requester — and returns the first hit; `none` exactly when all tiers are
empty. -/
theorem claim_C3 (records : List MatchRecord) (hist : List SessionHistoryRecord)
    (userId topic difficulty : String) :
    selectCandidate records hist userId topic difficulty =
      selectCandidateSpec records hist userId topic difficulty := by
  unfold selectCandidate selectCandidateSpec
  have e1 : tierExcl topic difficulty (excludedUserIds userId hist) false =
      specTier topic (some difficulty) (isExcluded userId hist) := by
    funext r
    unfold tierExcl specTier
    rw [contains_excludedUserIds]
    simp [Bool.and_comm, Bool.and_assoc, Bool.and_left_comm]
  have e2 : tierExcl topic difficulty (excludedUserIds userId hist) true =
      specTier topic none (isExcluded userId hist) := by
    funext r
    unfold tierExcl specTier
    rw [contains_excludedUserIds]
    simp [Bool.and_comm, Bool.and_assoc, Bool.and_left_comm]
  have e3 : tierSelf topic difficulty userId false =
      specTier topic (some difficulty) (fun x => x = userId) := by
    funext r
    unfold tierSelf specTier
    simp [Bool.and_comm, Bool.and_assoc, Bool.and_left_comm]
  have e4 : tierSelf topic difficulty userId true =
      specTier topic none (fun x => x = userId) := by
    funext r
    unfold tierSelf specTier
    simp [Bool.and_comm, Bool.and_assoc, Bool.and_left_comm]
  rw [e1, e2, e3, e4]
  cases records.find? (specTier topic (some difficulty) (isExcluded userId hist)) <;>
    cases records.find? (specTier topic none (isExcluded userId hist)) <;>
    cases records.find? (specTier topic (some difficulty) (fun x => x = userId)) <;>
    simp [Option.or]

/-! ### Concrete fixtures

States built by running the handlers from the empty store, so every state used
in a witness or counterexample is reachable. -/

/-- A question bank holding question 7 for every topic and difficulty. -/
def fqSome : String → String → Option Nat := fun _ _ => some 7

/-- An empty question bank: `fetchRandomQuestion` finds nothing. -/
def fqNone : String → String → Option Nat := fun _ _ => none

/-- The empty store. -/
def st0 : MatchState := ⟨[], [], [], [], 1⟩

/-- User B requested `(algo, easy)`; no candidate, so B waits. -/
def stB : MatchState :=
  handleUserRequest fqSome ("roomB") ("B") ("algo") ("easy") ("sockB") st0

/-- Then user A requested the same criteria: A and B are paired and pending. -/
def stAB : MatchState :=
  handleUserRequest fqSome ("roomA") ("A") ("algo") ("easy") ("sockA") stB

/-- B's waiting record as stored in `stB`. -/
def emB : MatchRecord :=
  ⟨1, "B", "algo", "easy", "sockB", false, none, false, false, false, "roomB", none⟩

/-- B's record inside `stAB`, marked matched with A and pending. -/
def recB : MatchRecord :=
  ⟨1, "B", "algo", "easy", "sockB", true, some ("A"), true, false, false, "roomB", none⟩

/-- A's record inside `stAB`: fresh room and the fetched question. -/
def recA : MatchRecord :=
  ⟨2, "A", "algo", "easy", "sockA", true, some ("B"), true, false, false, "roomA", some 7⟩

/-! ### C6: request-timeout handling -/

/-- C6: `handleTimeout` looks up the non-pending, non-archived record of the
user with the payload's socket; when absent nothing happens, when present the
record is archived unconditionally and the `timeout` notification is emitted
exactly when the record still has `matched = false`. -/
theorem claim_C6 (userId socketId : String) (s : MatchState) :
    (s.records.find? (timeoutLookup userId socketId) = none →
      handleTimeout userId socketId s = s) ∧
    (∀ r, s.records.find? (timeoutLookup userId socketId) = some r →
      (handleTimeout userId socketId s).records = archiveById r.recordId s.records ∧
      (handleTimeout userId socketId s).notifs =
        s.notifs ++ (if r.matched then [] else [⟨socketId, "timeout"⟩]) ∧
      (handleTimeout userId socketId s).history = s.history ∧
      (handleTimeout userId socketId s).scheduled = s.scheduled ∧
      (handleTimeout userId socketId s).nextRecordId = s.nextRecordId) := by
  constructor
  · intro h
    unfold handleTimeout
    rw [h]
  · intro r h
    unfold handleTimeout
    rw [h]
    exact ⟨rfl, rfl, rfl, rfl, rfl⟩

/-- C6 witness: in `stB`, a request timeout for B archives the waiting record
and emits `timeout` to the socket. -/
theorem claim_C6_witness :
    stB.records.find? (timeoutLookup ("B") ("sockB")) = some emB ∧
    (handleTimeout ("B") ("sockB") stB).records = archiveById emB.recordId stB.records ∧
    (handleTimeout ("B") ("sockB") stB).notifs =
      stB.notifs ++ (if emB.matched then [] else [⟨("sockB"), ("timeout")⟩]) :=
  ⟨by decide,
   ((claim_C6 ("B") ("sockB") stB).2 emB (by decide)).1,
   ((claim_C6 ("B") ("sockB") stB).2 emB (by decide)).2.1⟩

/-! ### C7: confirm-timeout handling -/

/-- C7: `handleConfirmTimeout` is a no-op when the record is missing or already
archived; otherwise it emits exactly one `matching_fail` to the record's socket
and archives it; running it twice equals running it once. -/
theorem claim_C7 (recordId : Nat) (s : MatchState) :
    (s.records.find? (fun r => r.recordId = recordId) = none →
      handleConfirmTimeout recordId s = s) ∧
    (∀ r, s.records.find? (fun r => r.recordId = recordId) = some r →
      r.isArchived = true → handleConfirmTimeout recordId s = s) ∧
    (∀ r, s.records.find? (fun r => r.recordId = recordId) = some r →
      r.isArchived = false →
      (handleConfirmTimeout recordId s).records = archiveById recordId s.records ∧
      (handleConfirmTimeout recordId s).notifs =
        s.notifs ++ [⟨r.socketId, "matching_fail"⟩] ∧
      (handleConfirmTimeout recordId s).history = s.history ∧
      (handleConfirmTimeout recordId s).scheduled = s.scheduled) ∧
    handleConfirmTimeout recordId (handleConfirmTimeout recordId s) =
      handleConfirmTimeout recordId s := by
  refine ⟨?_, ?_, ?_, ?_⟩
  · intro h
    unfold handleConfirmTimeout
    rw [h]
  · intro r h harch
    unfold handleConfirmTimeout
    rw [h]
    exact if_pos harch
  · intro r h harch
    have hs : handleConfirmTimeout recordId s =
        { s with records := archiveById recordId s.records,
                 notifs := s.notifs ++ [⟨r.socketId, "matching_fail"⟩] } := by
      unfold handleConfirmTimeout
      rw [h]
      exact if_neg (by simp [harch])
    rw [hs]
    exact ⟨rfl, rfl, rfl, rfl⟩
  · cases h : s.records.find? (fun r => r.recordId = recordId) with
    | none =>
      have hs : handleConfirmTimeout recordId s = s := by
        unfold handleConfirmTimeout
        rw [h]
      rw [hs, hs]
    | some r =>
      by_cases harch : r.isArchived = true
      · have hs : handleConfirmTimeout recordId s = s := by
          unfold handleConfirmTimeout
          rw [h]
          exact if_pos harch
        rw [hs, hs]
      · have hs : handleConfirmTimeout recordId s =
            { s with records := archiveById recordId s.records,
                     notifs := s.notifs ++ [⟨r.socketId, "matching_fail"⟩] } := by
          unfold handleConfirmTimeout
          rw [h]
          exact if_neg harch
        rw [hs]
        have hfind : (archiveById recordId s.records).find?
            (fun r => r.recordId = recordId) =
            some { r with isArchived := true } := by
          unfold archiveById updateById
          rw [find?_map_invariant (fun r0 => by by_cases h0 : r0.recordId = recordId <;>
            simp [h0]) s.records, h]
          have hrid : r.recordId = recordId := by
            have := List.find?_some h
            simpa using this
          simp [hrid]
        unfold handleConfirmTimeout
        dsimp only
        rw [hfind]
        exact if_pos rfl

/-- C7 witness: a confirm timeout for record 1 in `stAB` notifies B's socket and
archives the record; firing it again changes nothing. -/
theorem claim_C7_witness :
    stAB.records.find? (fun r => r.recordId = 1) = some recB ∧
    (handleConfirmTimeout 1 stAB).records = archiveById 1 stAB.records ∧
    (handleConfirmTimeout 1 stAB).notifs =
      stAB.notifs ++ [⟨recB.socketId, ("matching_fail")⟩] ∧
    handleConfirmTimeout 1 (handleConfirmTimeout 1 stAB) = handleConfirmTimeout 1 stAB :=
  ⟨by decide,
   ((claim_C7 1 stAB).2.2.1 recB (by decide) (by decide)).1,
   ((claim_C7 1 stAB).2.2.1 recB (by decide) (by decide)).2.1,
   (claim_C7 1 stAB).2.2.2⟩

/-! ### Facts about the candidate returned by the tier search -/

/-- A record passing tiers 1–2 is unmatched and non-archived. -/
theorem tierExcl_unmatched {topic difficulty : String} {excl : List String}
    {anyDiff : Bool} {r : MatchRecord} (h : tierExcl topic difficulty excl anyDiff r = true) :
    r.matched = false ∧ r.isArchived = false := by
  simp only [tierExcl, Bool.and_eq_true, Bool.not_eq_true'] at h
  tauto

/-- A record passing tiers 3–4 is unmatched and non-archived. -/
theorem tierSelf_unmatched {topic difficulty userId : String}
    {anyDiff : Bool} {r : MatchRecord} (h : tierSelf topic difficulty userId anyDiff r = true) :
    r.matched = false ∧ r.isArchived = false := by
  simp only [tierSelf, Bool.and_eq_true, Bool.not_eq_true'] at h
  tauto

/-- A selected candidate is a stored record, unmatched and non-archived. -/
theorem selectCandidate_props {records : List MatchRecord}
    {hist : List SessionHistoryRecord} {userId topic difficulty : String} {em : MatchRecord}
    (h : selectCandidate records hist userId topic difficulty = some em) :
    em ∈ records ∧ em.matched = false ∧ em.isArchived = false := by
  unfold selectCandidate at h
  cases h1 : records.find? (tierExcl topic difficulty (excludedUserIds userId hist) false) with
  | some r =>
    rw [h1] at h
    dsimp only at h
    cases h
    exact ⟨List.mem_of_find?_eq_some h1, tierExcl_unmatched (List.find?_some h1)⟩
  | none =>
    rw [h1] at h
    dsimp only at h
    cases h2 : records.find? (tierExcl topic difficulty (excludedUserIds userId hist) true) with
    | some r =>
      rw [h2] at h
      dsimp only at h
      cases h
      exact ⟨List.mem_of_find?_eq_some h2, tierExcl_unmatched (List.find?_some h2)⟩
    | none =>
      rw [h2] at h
      dsimp only at h
      cases h3 : records.find? (tierSelf topic difficulty userId false) with
      | some r =>
        rw [h3] at h
        dsimp only at h
        cases h
        exact ⟨List.mem_of_find?_eq_some h3, tierSelf_unmatched (List.find?_some h3)⟩
      | none =>
        rw [h3] at h
        dsimp only at h
        exact ⟨List.mem_of_find?_eq_some h, tierSelf_unmatched (List.find?_some h)⟩

/-! ### C8: the no-question-available failure path -/

/-- C8: when a candidate was selected but the question bank has nothing for the
criteria, both sockets get `question_error`, the candidate's record is deleted,
no record is created for the requester, and nothing else changes. -/
theorem claim_C8 (fetchQ : String → String → Option Nat)
    (newRoom userId topic difficulty socketId : String) (s : MatchState) (em : MatchRecord)
    (hdup : s.records.find? (dupCheck userId) = none)
    (hsel : selectCandidate s.records s.history userId topic difficulty = some em)
    (hq : fetchQ difficulty topic = none) :
    (handleUserRequest fetchQ newRoom userId topic difficulty socketId s).records =
      deleteById em.recordId s.records ∧
    (handleUserRequest fetchQ newRoom userId topic difficulty socketId s).notifs =
      s.notifs ++ [⟨socketId, "question_error"⟩, ⟨em.socketId, "question_error"⟩] ∧
    (handleUserRequest fetchQ newRoom userId topic difficulty socketId s).history =
      s.history ∧
    (handleUserRequest fetchQ newRoom userId topic difficulty socketId s).scheduled =
      s.scheduled ∧
    (handleUserRequest fetchQ newRoom userId topic difficulty socketId s).nextRecordId =
      s.nextRecordId ∧
    ∀ r ∈ (handleUserRequest fetchQ newRoom userId topic difficulty socketId s).records,
      r ∈ s.records := by
  have hstate : handleUserRequest fetchQ newRoom userId topic difficulty socketId s =
      { s with
        notifs := s.notifs ++
          [⟨socketId, "question_error"⟩, ⟨em.socketId, "question_error"⟩],
        records := deleteById em.recordId s.records } := by
    unfold handleUserRequest
    rw [hdup, hsel, hq]
  rw [hstate]
  exact ⟨rfl, rfl, rfl, rfl, rfl, fun r hr => List.mem_of_mem_filter hr⟩

/-- C8 witness: B waits, A requests with an empty question bank — both sockets
get `question_error` and B's record is deleted. -/
theorem claim_C8_witness :
    stB.records.find? (dupCheck ("A")) = none ∧
    selectCandidate stB.records stB.history ("A") ("algo") ("easy") = some emB ∧
    (handleUserRequest fqNone ("roomA") ("A") ("algo") ("easy") ("sockA") stB).records =
      deleteById emB.recordId stB.records ∧
    (handleUserRequest fqNone ("roomA") ("A") ("algo") ("easy") ("sockA") stB).notifs =
      stB.notifs ++ [⟨("sockA"), ("question_error")⟩, ⟨emB.socketId, ("question_error")⟩] :=
  ⟨by decide, by decide,
   (claim_C8 fqNone ("roomA") ("A") ("algo") ("easy") ("sockA") stB emB
     (by decide) (by decide) rfl).1,
   (claim_C8 fqNone ("roomA") ("A") ("algo") ("easy") ("sockA") stB emB
     (by decide) (by decide) rfl).2.1⟩

/-! ### C9: duplicate-request fencing -/

/-- The duplicate fence run on `stB` by a second request from B on a new
socket. -/
def stDup : MatchState :=
  handleUserRequest fqSome ("roomX") ("B") ("algo") ("easy") ("sockB2") stB

/-- C9 counterexample: the fence fires and emits exactly one notification, but
its event name is the literal `duplicate socket`, not `duplicate_socket` as the
claim states. -/
theorem claim_C9_counterexample :
    stB.records.find? (dupCheck ("B")) = some emB ∧
    ¬ emB.socketId = ("sockB2") ∧
    stDup.notifs = [⟨("sockB"), ("duplicate socket")⟩] ∧
    ¬ ("duplicate socket" : String) = ("duplicate_socket") := by decide

/-- C9 as amended: the fence notifies the old socket with the event named
`duplicate socket` (with a space), rewrites only the stored socket id of the
user's record, creates no record, runs no candidate search, and leaves history,
schedule and the id counter untouched. -/
theorem claim_C9_amended (fetchQ : String → String → Option Nat)
    (newRoom userId topic difficulty socketId : String) (s : MatchState) (u : MatchRecord)
    (hdup : s.records.find? (dupCheck userId) = some u)
    (hsock : ¬ u.socketId = socketId) :
    handleUserRequest fetchQ newRoom userId topic difficulty socketId s =
      { s with
        notifs := s.notifs ++ [⟨u.socketId, "duplicate socket"⟩],
        records := updateById u.recordId (fun r => { r with socketId := socketId })
          s.records } ∧
    (handleUserRequest fetchQ newRoom userId topic difficulty socketId s).records.map
        (fun r => r.recordId) =
      s.records.map (fun r => r.recordId) := by
  have hstate : handleUserRequest fetchQ newRoom userId topic difficulty socketId s =
      { s with
        notifs := s.notifs ++ [⟨u.socketId, "duplicate socket"⟩],
        records := updateById u.recordId (fun r => { r with socketId := socketId })
          s.records } := by
    unfold handleUserRequest
    rw [hdup]
    dsimp only
    rw [if_neg hsock]
  refine ⟨hstate, ?_⟩
  rw [hstate]
  show (List.map _ s.records).map _ = _
  rw [List.map_map]
  apply List.map_congr_left
  intro r _
  by_cases h : r.recordId = u.recordId <;> simp [h]

/-- C9 witness for the amended claim: B re-requests on socket `sockB2`; the old
socket gets `duplicate socket` and only the stored socket id changes. -/
theorem claim_C9_witness :
    stB.records.find? (dupCheck ("B")) = some emB ∧
    ¬ emB.socketId = ("sockB2") ∧
    stDup =
      { stB with
        notifs := stB.notifs ++ [⟨emB.socketId, ("duplicate socket")⟩],
        records := updateById emB.recordId (fun r => { r with socketId := ("sockB2") })
          stB.records } :=
  ⟨by decide, by decide,
   (claim_C9_amended fqSome ("roomX") ("B") ("algo") ("easy") ("sockB2") stB emB
     (by decide) (by decide)).1⟩

/-! ### C2: one non-archived record per user -/

/-- A pending A re-requests: the duplicate check skips pending records, so a
fresh waiting record for A is created next to A's pending one. -/
def stABA : MatchState :=
  handleUserRequest fqSome ("roomA2") ("A") ("algo") ("easy") ("sockA") stAB

/-- C2 counterexample: after B requests, A requests (pairing them) and A
requests again, the store reachable from empty holds two non-archived records
for A — `handleUserRequest` created a record although A already had a
non-archived (pending) one. -/
theorem claim_C2_counterexample :
    stAB.records.countP (fun r => r.userId = ("A" : String) && !r.isArchived) = 1 ∧
    stAB.records.find? (dupCheck ("A")) = none ∧
    stABA.records.countP (fun r => r.userId = ("A" : String) && !r.isArchived) = 2 := by
  decide

/-- C2 as amended: the fence only covers non-pending records — when the user
already holds a non-archived, non-pending record, `handleUserRequest` creates
and deletes nothing (record ids are preserved) and leaves history, schedule and
the id counter unchanged; a user whose only non-archived record is pending can
gain a second non-archived record. -/
theorem claim_C2_amended (fetchQ : String → String → Option Nat)
    (newRoom userId topic difficulty socketId : String) (s : MatchState) (u : MatchRecord)
    (hdup : s.records.find? (dupCheck userId) = some u) :
    (handleUserRequest fetchQ newRoom userId topic difficulty socketId s).records.map
        (fun r => r.recordId) =
      s.records.map (fun r => r.recordId) ∧
    (handleUserRequest fetchQ newRoom userId topic difficulty socketId s).history =
      s.history ∧
    (handleUserRequest fetchQ newRoom userId topic difficulty socketId s).scheduled =
      s.scheduled ∧
    (handleUserRequest fetchQ newRoom userId topic difficulty socketId s).nextRecordId =
      s.nextRecordId := by
  by_cases hsock : u.socketId = socketId
  · have hstate : handleUserRequest fetchQ newRoom userId topic difficulty socketId s = s := by
      unfold handleUserRequest
      rw [hdup]
      dsimp only
      rw [if_pos hsock]
    rw [hstate]
    exact ⟨rfl, rfl, rfl, rfl⟩
  · obtain ⟨hstate, hids⟩ := claim_C9_amended fetchQ newRoom userId topic difficulty
      socketId s u hdup hsock
    rw [hstate] at hids ⊢
    exact ⟨hids, rfl, rfl, rfl⟩

/-- C2 witness for the amended claim: B still waiting re-requests on the same
socket; nothing is created. -/
theorem claim_C2_witness :
    stB.records.find? (dupCheck ("B")) = some emB ∧
    (handleUserRequest fqSome ("roomY") ("B") ("algo") ("easy") ("sockB") stB).records.map
        (fun r => r.recordId) =
      stB.records.map (fun r => r.recordId) :=
  ⟨by decide,
   (claim_C2_amended fqSome ("roomY") ("B") ("algo") ("easy") ("sockB") stB emB
     (by decide)).1⟩

/-! ### C1: what pairing writes into the two records -/

/-- C1 counterexample: in the reachable paired state `stAB` the two records
reference each other and are matched and live, but their `roomNumber`s differ
and their `questionId`s differ — pairing never copies room or question onto the
candidate's record. -/
theorem claim_C1_counterexample :
    stAB.records = [recB, recA] ∧
    recB.matchedUserId = some recA.userId ∧
    recA.matchedUserId = some recB.userId ∧
    recB.matched = true ∧ recA.matched = true ∧
    recB.isArchived = false ∧ recA.isArchived = false ∧
    ¬ recB.roomNumber = recA.roomNumber ∧
    ¬ recB.questionId = recA.questionId := by decide

/-- C1 as amended: pairing leaves the two records referencing each other
reciprocally, but only the requester's new record carries the freshly drawn
room and the fetched question; the candidate's record keeps its own original
`roomNumber` and `questionId`, so the counterparts need not agree on either. -/
theorem claim_C1_amended (fetchQ : String → String → Option Nat)
    (newRoom userId topic difficulty socketId : String) (s : MatchState)
    (em : MatchRecord) (q : Nat)
    (hdup : s.records.find? (dupCheck userId) = none)
    (hsel : selectCandidate s.records s.history userId topic difficulty = some em)
    (hq : fetchQ difficulty topic = some q) :
    ∃ rc ru,
      rc ∈ (handleUserRequest fetchQ newRoom userId topic difficulty socketId s).records ∧
      ru ∈ (handleUserRequest fetchQ newRoom userId topic difficulty socketId s).records ∧
      rc.userId = em.userId ∧ rc.matchedUserId = some userId ∧
      ru.userId = userId ∧ ru.matchedUserId = some em.userId ∧
      rc.matched = true ∧ ru.matched = true ∧
      rc.isPending = true ∧ ru.isPending = true ∧
      rc.isArchived = false ∧ ru.isArchived = false ∧
      ru.roomNumber = newRoom ∧ ru.questionId = some q ∧
      rc.roomNumber = em.roomNumber ∧ rc.questionId = em.questionId := by
  obtain ⟨hmem, -, harch⟩ := selectCandidate_props hsel
  have hstate : handleUserRequest fetchQ newRoom userId topic difficulty socketId s =
      { s with
        records := updateById em.recordId
          (fun r => { r with matched := true, matchedUserId := some userId,
                             isPending := true }) s.records ++
          [⟨s.nextRecordId, userId, topic, difficulty, socketId, true, some em.userId,
            true, false, false, newRoom, some q⟩],
        nextRecordId := s.nextRecordId + 1,
        notifs := s.notifs ++ [⟨socketId, "matched"⟩, ⟨em.socketId, "matched"⟩],
        scheduled := s.scheduled ++ [s.nextRecordId, em.recordId] } := by
    unfold handleUserRequest
    rw [hdup, hsel, hq]
  refine ⟨{ em with matched := true, matchedUserId := some userId, isPending := true },
    ⟨s.nextRecordId, userId, topic, difficulty, socketId, true, some em.userId,
      true, false, false, newRoom, some q⟩, ?_, ?_,
    rfl, rfl, rfl, rfl, rfl, rfl, rfl, rfl, harch, rfl, rfl, rfl, rfl, rfl⟩
  · rw [hstate]
    apply List.mem_append_left
    exact List.mem_map.mpr ⟨em, hmem, by rw [if_pos rfl]⟩
  · rw [hstate]
    apply List.mem_append_right
    exact List.mem_singleton.mpr rfl

/-- C1 witness for the amended claim: applied to the reachable state `stB` with
requester A, candidate B and question 7. -/
theorem claim_C1_witness :
    stB.records.find? (dupCheck ("A")) = none ∧
    selectCandidate stB.records stB.history ("A") ("algo") ("easy") = some emB ∧
    ∃ rc ru,
      rc ∈ stAB.records ∧ ru ∈ stAB.records ∧
      rc.userId = emB.userId ∧ rc.matchedUserId = some ("A") ∧
      ru.userId = ("A") ∧ ru.matchedUserId = some emB.userId ∧
      rc.matched = true ∧ ru.matched = true ∧
      rc.isPending = true ∧ ru.isPending = true ∧
      rc.isArchived = false ∧ ru.isArchived = false ∧
      ru.roomNumber = ("roomA") ∧ ru.questionId = some 7 ∧
      rc.roomNumber = emB.roomNumber ∧ rc.questionId = emB.questionId :=
  ⟨by decide, by decide,
   claim_C1_amended fqSome ("roomA") ("A") ("algo") ("easy") ("sockA") stB emB 7
     (by decide) (by decide) rfl⟩

/-! ### C5: a duplicate confirm is a no-op -/

/-- First confirm from a mutually-pending, unconfirmed pair: the caller's
record gains `isConfirmed` and the counterpart is prompted. -/
theorem confirm_first_step (userId : String) (s : MatchState) (ra rb : MatchRecord)
    (hu : s.records.find? (pendingUser userId) = some ra)
    (hm : s.records.find? (pendingMatched userId) = some rb)
    (hca : ra.isConfirmed = false)
    (hcb : rb.isConfirmed = false) :
    handleMatchingConfirm userId s =
      { s with
        records := updateById ra.recordId (fun r => { r with isConfirmed := true })
          s.records,
        notifs := s.notifs ++ [⟨rb.socketId, "other_accepted"⟩] } := by
  unfold handleMatchingConfirm
  rw [hu, hm]
  dsimp only
  rw [hca, hcb]
  simp only [Bool.false_eq_true, if_false]

/-- Marking one record confirmed commutes with any lookup that ignores the
`isConfirmed` flag. -/
theorem find?_confirm_update (p : MatchRecord → Bool) (rid : Nat)
    (hp : ∀ r, p { r with isConfirmed := true } = p r) (l : List MatchRecord) :
    (updateById rid (fun r => { r with isConfirmed := true }) l).find? p =
      (l.find? p).map
        (fun r => if r.recordId = rid then { r with isConfirmed := true } else r) := by
  unfold updateById
  refine find?_map_invariant (fun r => ?_) l
  by_cases h0 : r.recordId = rid
  · rw [if_pos h0]
    exact hp r
  · rw [if_neg h0]

/-- C5: a second confirm from the same user, sent while both records are still
present and pending, changes nothing: two consecutive confirms equal one. -/
theorem claim_C5 (userId : String) (s : MatchState) (ra rb : MatchRecord)
    (hu : s.records.find? (pendingUser userId) = some ra)
    (hm : s.records.find? (pendingMatched userId) = some rb)
    (hid : ¬ ra.recordId = rb.recordId)
    (hca : ra.isConfirmed = false)
    (hcb : rb.isConfirmed = false) :
    handleMatchingConfirm userId (handleMatchingConfirm userId s) =
      handleMatchingConfirm userId s := by
  have hs1 := confirm_first_step userId s ra rb hu hm hca hcb
  have hu2 : (updateById ra.recordId (fun r => { r with isConfirmed := true })
      s.records).find? (pendingUser userId) = some { ra with isConfirmed := true } := by
    rw [find?_confirm_update (pendingUser userId) ra.recordId
      (fun r => by simp [pendingUser]) s.records, hu]
    rw [Option.map_some', if_pos rfl]
  have hm2 : (updateById ra.recordId (fun r => { r with isConfirmed := true })
      s.records).find? (pendingMatched userId) = some rb := by
    rw [find?_confirm_update (pendingMatched userId) ra.recordId
      (fun r => by simp [pendingMatched]) s.records, hm]
    rw [Option.map_some', if_neg (fun hh => hid (hh.symm))]
  rw [hs1]
  unfold handleMatchingConfirm
  dsimp only
  rw [hu2, hm2]
  dsimp only
  exact if_pos rfl

/-- C5 witness: in the paired state `stAB`, A confirms twice; the second call
leaves the state exactly as after the first. -/
theorem claim_C5_witness :
    stAB.records.find? (pendingUser ("A")) = some recA ∧
    stAB.records.find? (pendingMatched ("A")) = some recB ∧
    handleMatchingConfirm ("A") (handleMatchingConfirm ("A") stAB) =
      handleMatchingConfirm ("A") stAB :=
  ⟨by decide, by decide,
   claim_C5 ("A") stAB recA recB (by decide) (by decide) (by decide) (by decide)
     (by decide)⟩

/-! ### C4: double confirmation is commutative -/

/-- Confirming the pair in one fixed order, computed in closed form. -/
theorem confirm_confirm_aux (A B : String) (s : MatchState) (ra rb : MatchRecord)
    (huA : s.records.find? (pendingUser A) = some ra)
    (hmA : s.records.find? (pendingMatched A) = some rb)
    (huB : s.records.find? (pendingUser B) = some rb)
    (hmB : s.records.find? (pendingMatched B) = some ra)
    (hid : ¬ ra.recordId = rb.recordId)
    (hca : ra.isConfirmed = false)
    (hcb : rb.isConfirmed = false) :
    handleMatchingConfirm B (handleMatchingConfirm A s) =
      { s with
        records := archiveById rb.recordId (archiveById ra.recordId
          (updateById rb.recordId (fun r => { r with isConfirmed := true })
            (updateById ra.recordId (fun r => { r with isConfirmed := true })
              s.records))),
        history := s.history ++
          [⟨rb.userId, ra.userId, ra.roomNumber,
            ra.questionId.getD (rb.questionId.getD 0), true⟩],
        notifs := (s.notifs ++ [⟨rb.socketId, "other_accepted"⟩]) ++
          [⟨rb.socketId, "matching_success"⟩, ⟨ra.socketId, "matching_success"⟩] } := by
  have hid2 : ¬ rb.recordId = ra.recordId := fun h => hid h.symm
  have hs1 := confirm_first_step A s ra rb huA hmA hca hcb
  have huB2 : (updateById ra.recordId (fun r => { r with isConfirmed := true })
      s.records).find? (pendingUser B) = some rb := by
    rw [find?_confirm_update (pendingUser B) ra.recordId
      (fun r => by simp [pendingUser]) s.records, huB]
    rw [Option.map_some', if_neg hid2]
  have hmB2 : (updateById ra.recordId (fun r => { r with isConfirmed := true })
      s.records).find? (pendingMatched B) = some { ra with isConfirmed := true } := by
    rw [find?_confirm_update (pendingMatched B) ra.recordId
      (fun r => by simp [pendingMatched]) s.records, hmB]
    rw [Option.map_some', if_pos rfl]
  rw [hs1]
  unfold handleMatchingConfirm
  dsimp only
  rw [huB2, hmB2]
  dsimp only
  rw [hcb]
  simp only [Bool.false_eq_true, if_false]
  exact if_pos trivial

/-- Unpacking one conditional rewrite layer of the store. -/
theorem mem_updateById_cases {l : List MatchRecord} {rid : Nat}
    {f : MatchRecord → MatchRecord} {r : MatchRecord} (h : r ∈ updateById rid f l) :
    ∃ r0 ∈ l, r = if r0.recordId = rid then f r0 else r0 := by
  obtain ⟨r0, h0, he⟩ := List.mem_map.mp h
  exact ⟨r0, h0, he.symm⟩

/-- Every record of the pair is archived after the confirm-update chain. -/
theorem mem_arch_chain {l : List MatchRecord} {i j : Nat} (hij : ¬ i = j)
    (r : MatchRecord)
    (hr : r ∈ archiveById j (archiveById i
      (updateById j (fun r => { r with isConfirmed := true })
        (updateById i (fun r => { r with isConfirmed := true }) l))))
    (hcase : r.recordId = i ∨ r.recordId = j) :
    r.isArchived = true := by
  have hij2 : ¬ j = i := fun h => hij h.symm
  unfold archiveById at hr
  obtain ⟨r3, hr3, e3⟩ := mem_updateById_cases hr
  obtain ⟨r2, hr2, e2⟩ := mem_updateById_cases hr3
  obtain ⟨r1, hr1, e1⟩ := mem_updateById_cases hr2
  obtain ⟨r0, hr0, e0⟩ := mem_updateById_cases hr1
  by_cases hi : r0.recordId = i <;> by_cases hj : r0.recordId = j
  · exact absurd (hi.symm.trans hj) hij
  · rw [if_pos hi] at e0
    subst e0
    dsimp only at e1
    rw [if_neg (fun hh => hij (hi.symm.trans hh))] at e1
    subst e1
    dsimp only at e2
    rw [if_pos hi] at e2
    subst e2
    dsimp only at e3
    rw [if_neg (fun hh => hij (hi.symm.trans hh))] at e3
    subst e3
    rfl
  · rw [if_neg hi] at e0
    subst e0
    rw [if_pos hj] at e1
    subst e1
    dsimp only at e2
    rw [if_neg (fun hh => hij2 (hj.symm.trans hh))] at e2
    subst e2
    dsimp only at e3
    rw [if_pos hj] at e3
    subst e3
    rfl
  · rw [if_neg hi] at e0
    subst e0
    rw [if_neg hj] at e1
    subst e1
    rw [if_neg hi] at e2
    subst e2
    rw [if_neg hj] at e3
    subst e3
    rcases hcase with h | h
    · exact absurd h hi
    · exact absurd h hj

/-- C4: from a mutually-pending unconfirmed pair, confirming A then B or B then
A both archive both records, append exactly one SessionHistoryRecord for the
pair, and emit exactly two `matching_success` notifications, one per socket
(after the single `other_accepted` of the first confirm). -/
theorem claim_C4 (A B : String) (s : MatchState) (ra rb : MatchRecord)
    (huA : s.records.find? (pendingUser A) = some ra)
    (hmA : s.records.find? (pendingMatched A) = some rb)
    (huB : s.records.find? (pendingUser B) = some rb)
    (hmB : s.records.find? (pendingMatched B) = some ra)
    (hid : ¬ ra.recordId = rb.recordId)
    (hca : ra.isConfirmed = false)
    (hcb : rb.isConfirmed = false) :
    (handleMatchingConfirm B (handleMatchingConfirm A s)).history =
      s.history ++ [⟨rb.userId, ra.userId, ra.roomNumber,
        ra.questionId.getD (rb.questionId.getD 0), true⟩] ∧
    (handleMatchingConfirm A (handleMatchingConfirm B s)).history =
      s.history ++ [⟨ra.userId, rb.userId, rb.roomNumber,
        rb.questionId.getD (ra.questionId.getD 0), true⟩] ∧
    (handleMatchingConfirm B (handleMatchingConfirm A s)).notifs =
      s.notifs ++ [⟨rb.socketId, "other_accepted"⟩, ⟨rb.socketId, "matching_success"⟩,
        ⟨ra.socketId, "matching_success"⟩] ∧
    (handleMatchingConfirm A (handleMatchingConfirm B s)).notifs =
      s.notifs ++ [⟨ra.socketId, "other_accepted"⟩, ⟨ra.socketId, "matching_success"⟩,
        ⟨rb.socketId, "matching_success"⟩] ∧
    (∀ r ∈ (handleMatchingConfirm B (handleMatchingConfirm A s)).records,
      r.recordId = ra.recordId ∨ r.recordId = rb.recordId → r.isArchived = true) ∧
    (∀ r ∈ (handleMatchingConfirm A (handleMatchingConfirm B s)).records,
      r.recordId = ra.recordId ∨ r.recordId = rb.recordId → r.isArchived = true) := by
  have hid2 : ¬ rb.recordId = ra.recordId := fun h => hid h.symm
  have hAB := confirm_confirm_aux A B s ra rb huA hmA huB hmB hid hca hcb
  have hBA := confirm_confirm_aux B A s rb ra huB hmB huA hmA hid2 hcb hca
  refine ⟨?_, ?_, ?_, ?_, ?_, ?_⟩
  · rw [hAB]
  · rw [hBA]
  · rw [hAB]
    simp [List.append_assoc]
  · rw [hBA]
    simp [List.append_assoc]
  · intro r hr hcase
    rw [hAB] at hr
    exact mem_arch_chain hid r hr hcase
  · intro r hr hcase
    rw [hBA] at hr
    exact mem_arch_chain hid2 r hr (hcase.symm)

/-- C4 witness: in `stAB`, A-then-B and B-then-A yield the two histories and
notification logs stated by the theorem. -/
theorem claim_C4_witness :
    stAB.records.find? (pendingUser ("A")) = some recA ∧
    stAB.records.find? (pendingMatched ("A")) = some recB ∧
    stAB.records.find? (pendingUser ("B")) = some recB ∧
    stAB.records.find? (pendingMatched ("B")) = some recA ∧
    (handleMatchingConfirm ("B") (handleMatchingConfirm ("A") stAB)).history =
      stAB.history ++ [⟨recB.userId, recA.userId, recA.roomNumber,
        recA.questionId.getD (recB.questionId.getD 0), true⟩] ∧
    (handleMatchingConfirm ("A") (handleMatchingConfirm ("B") stAB)).history =
      stAB.history ++ [⟨recA.userId, recB.userId, recB.roomNumber,
        recB.questionId.getD (recA.questionId.getD 0), true⟩] ∧
    (handleMatchingConfirm ("B") (handleMatchingConfirm ("A") stAB)).notifs =
      stAB.notifs ++ [⟨recB.socketId, ("other_accepted")⟩,
        ⟨recB.socketId, ("matching_success")⟩, ⟨recA.socketId, ("matching_success")⟩] :=
  ⟨by decide, by decide, by decide, by decide,
   (claim_C4 ("A") ("B") stAB recA recB (by decide) (by decide) (by decide) (by decide)
     (by decide) (by decide) (by decide)).1,
   (claim_C4 ("A") ("B") stAB recA recB (by decide) (by decide) (by decide) (by decide)
     (by decide) (by decide) (by decide)).2.1,
   (claim_C4 ("A") ("B") stAB recA recB (by decide) (by decide) (by decide) (by decide)
     (by decide) (by decide) (by decide)).2.2.1⟩

/-! ### C10: archival is terminal -/

/-- Archived records survive a handler untouched: every record archived in the
pre-state is still present, unchanged, afterwards. -/
def preservesArchived (s1 s : MatchState) : Prop :=
  ∀ r ∈ s.records, r.isArchived = true → r ∈ s1.records

/-- All notifications appended by a handler target the incoming request's
socket or the socket of a record that was live (non-archived) before the
handler ran — never an archived record's. -/
def notifsScoped (s1 s : MatchState) (reqSock : Option String) : Prop :=
  ∀ n ∈ s1.notifs.drop s.notifs.length,
    some n.socketId = reqSock ∨
      ∃ r0 ∈ s.records, r0.isArchived = false ∧ r0.socketId = n.socketId

/-- A record whose id misses the update target passes through unchanged. -/
theorem mem_updateById_of_ne {l : List MatchRecord} {rid : Nat}
    {f : MatchRecord → MatchRecord} {r : MatchRecord} (hr : r ∈ l)
    (hne : ¬ r.recordId = rid) : r ∈ updateById rid f l :=
  List.mem_map.mpr ⟨r, hr, by rw [if_neg hne]⟩

/-- A record whose id misses the delete target survives the deletion. -/
theorem mem_deleteById_of_ne {l : List MatchRecord} {rid : Nat} {r : MatchRecord}
    (hr : r ∈ l) (hne : ¬ r.recordId = rid) : r ∈ deleteById rid l := by
  refine List.mem_filter.mpr ⟨hr, ?_⟩
  simp [hne]

/-- With unique record ids, an archived record never shares its id with a live
one. -/
theorem ne_id_of_archived {l : List MatchRecord}
    (hnd : (l.map (fun r => r.recordId)).Nodup) {r u : MatchRecord}
    (hr : r ∈ l) (hu : u ∈ l) (ha : r.isArchived = true)
    (hlive : u.isArchived = false) : ¬ r.recordId = u.recordId := by
  intro h
  have heq := List.inj_on_of_nodup_map hnd hr hu h
  rw [heq, hlive] at ha
  cases ha

/-- Re-archiving an archived record is the identity. -/
theorem set_archived_self {r : MatchRecord} (h : r.isArchived = true) :
    ({ r with isArchived := true } : MatchRecord) = r := by
  rcases r with ⟨f1, f2, f3, f4, f5, f6, f7, f8, f9, fa, fb, fc⟩
  dsimp only at h
  rw [h]

/-- The duplicate-check lookup only returns live records. -/
theorem dupCheck_live {userId : String} {r : MatchRecord}
    (h : dupCheck userId r = true) : r.isArchived = false := by
  simp only [dupCheck, Bool.and_eq_true, Bool.not_eq_true'] at h
  tauto

/-- The pending-user lookup only returns live records. -/
theorem pendingUser_live {userId : String} {r : MatchRecord}
    (h : pendingUser userId r = true) : r.isArchived = false := by
  simp only [pendingUser, Bool.and_eq_true, Bool.not_eq_true'] at h
  tauto

/-- The pending-counterpart lookup only returns live records. -/
theorem pendingMatched_live {userId : String} {r : MatchRecord}
    (h : pendingMatched userId r = true) : r.isArchived = false := by
  simp only [pendingMatched, Bool.and_eq_true, Bool.not_eq_true'] at h
  tauto

/-- The timeout lookup only returns live records. -/
theorem timeoutLookup_live {userId socketId : String} {r : MatchRecord}
    (h : timeoutLookup userId socketId r = true) : r.isArchived = false := by
  simp only [timeoutLookup, Bool.and_eq_true, Bool.not_eq_true'] at h
  tauto

/-- Disconnect handling never mutates an already-archived record. -/
theorem disconnected_preserves_archived (socketId : String) (s : MatchState) :
    preservesArchived (handleDisconnected socketId s) s := by
  intro r hr ha
  unfold handleDisconnected
  dsimp only
  refine List.mem_map.mpr ⟨r, hr, ?_⟩
  by_cases h : r.socketId = socketId
  · rw [if_pos h, set_archived_self ha]
  · rw [if_neg h]

/-- Disconnect handling emits nothing. -/
theorem disconnected_notifs_scoped (socketId : String) (s : MatchState) :
    notifsScoped (handleDisconnected socketId s) s none := by
  intro n hn
  unfold handleDisconnected at hn
  dsimp only at hn
  rw [List.drop_length] at hn
  cases hn

/-- Request-timeout handling never touches an archived record. -/
theorem timeout_preserves_archived (userId socketId : String) (s : MatchState)
    (hnd : (s.records.map (fun r => r.recordId)).Nodup) :
    preservesArchived (handleTimeout userId socketId s) s := by
  intro r hr ha
  unfold handleTimeout
  cases h : s.records.find? (timeoutLookup userId socketId) with
  | none => exact hr
  | some res =>
    have hlive : res.isArchived = false := timeoutLookup_live (List.find?_some h)
    have hne : ¬ r.recordId = res.recordId :=
      ne_id_of_archived hnd hr (List.mem_of_find?_eq_some h) ha hlive
    exact mem_updateById_of_ne hr hne

/-- Request-timeout handling notifies only the request's socket or nothing. -/
theorem timeout_notifs_scoped (userId socketId : String) (s : MatchState) :
    notifsScoped (handleTimeout userId socketId s) s (some socketId) := by
  intro n hn
  unfold handleTimeout at hn
  cases h : s.records.find? (timeoutLookup userId socketId) with
  | none =>
    rw [h] at hn
    dsimp only at hn
    rw [List.drop_length] at hn
    cases hn
  | some res =>
    rw [h] at hn
    dsimp only at hn
    rw [List.drop_left] at hn
    cases hres : res.matched with
    | true =>
      rw [hres] at hn
      simp only [if_true] at hn
      cases hn
    | false =>
      rw [hres] at hn
      simp only [Bool.false_eq_true, if_false, List.mem_singleton] at hn
      subst hn
      exact Or.inl rfl

/-- Confirm-timeout handling never touches an archived record. -/
theorem confirmTimeout_preserves_archived (recordId : Nat) (s : MatchState)
    (hnd : (s.records.map (fun r => r.recordId)).Nodup) :
    preservesArchived (handleConfirmTimeout recordId s) s := by
  intro r hr ha
  unfold handleConfirmTimeout
  cases h : s.records.find? (fun r => r.recordId = recordId) with
  | none => exact hr
  | some res =>
    dsimp only
    cases hres : res.isArchived with
    | true =>
      rw [if_pos rfl]
      exact hr
    | false =>
      rw [if_neg Bool.false_ne_true]
      dsimp only
      have hresid : res.recordId = recordId := by
        have := List.find?_some h
        simpa using this
      have hne : ¬ r.recordId = res.recordId :=
        ne_id_of_archived hnd hr (List.mem_of_find?_eq_some h) ha hres
      exact mem_updateById_of_ne hr (hresid ▸ hne)

/-- Confirm-timeout handling notifies only the socket of a live record. -/
theorem confirmTimeout_notifs_scoped (recordId : Nat) (s : MatchState) :
    notifsScoped (handleConfirmTimeout recordId s) s none := by
  intro n hn
  unfold handleConfirmTimeout at hn
  cases h : s.records.find? (fun r => r.recordId = recordId) with
  | none =>
    rw [h] at hn
    dsimp only at hn
    rw [List.drop_length] at hn
    cases hn
  | some res =>
    rw [h] at hn
    dsimp only at hn
    cases hres : res.isArchived with
    | true =>
      rw [hres, if_pos rfl] at hn
      rw [List.drop_length] at hn
      cases hn
    | false =>
      rw [hres, if_neg Bool.false_ne_true] at hn
      dsimp only at hn
      rw [List.drop_left] at hn
      rw [List.mem_singleton] at hn
      subst hn
      exact Or.inr ⟨res, List.mem_of_find?_eq_some h, hres, rfl⟩

/-- Request intake never touches an archived record: it is not the duplicate
target, not the selected candidate, not the deletion target. -/
theorem userRequest_preserves_archived (fetchQ : String → String → Option Nat)
    (newRoom userId topic difficulty socketId : String) (s : MatchState)
    (hnd : (s.records.map (fun r => r.recordId)).Nodup) :
    preservesArchived (handleUserRequest fetchQ newRoom userId topic difficulty socketId s)
      s := by
  intro r hr ha
  unfold handleUserRequest
  cases hdup : s.records.find? (dupCheck userId) with
  | some u =>
    dsimp only
    have hlive := dupCheck_live (List.find?_some hdup)
    have hne := ne_id_of_archived hnd hr (List.mem_of_find?_eq_some hdup) ha hlive
    by_cases hsock : u.socketId = socketId
    · rw [if_pos hsock]
      exact hr
    · rw [if_neg hsock]
      exact mem_updateById_of_ne hr hne
  | none =>
    dsimp only
    cases hsel : selectCandidate s.records s.history userId topic difficulty with
    | some em =>
      dsimp only
      obtain ⟨hmem, -, hlive⟩ := selectCandidate_props hsel
      have hne := ne_id_of_archived hnd hr hmem ha hlive
      cases hq : fetchQ difficulty topic with
      | none =>
        dsimp only
        exact mem_deleteById_of_ne hr hne
      | some q =>
        dsimp only
        exact List.mem_append_left _ (mem_updateById_of_ne hr hne)
    | none =>
      dsimp only
      exact List.mem_append_left _ hr

/-- Request intake notifies only the requester's socket or live records. -/
theorem userRequest_notifs_scoped (fetchQ : String → String → Option Nat)
    (newRoom userId topic difficulty socketId : String) (s : MatchState) :
    notifsScoped (handleUserRequest fetchQ newRoom userId topic difficulty socketId s)
      s (some socketId) := by
  intro n hn
  unfold handleUserRequest at hn
  cases hdup : s.records.find? (dupCheck userId) with
  | some u =>
    rw [hdup] at hn
    dsimp only at hn
    have hlive := dupCheck_live (List.find?_some hdup)
    by_cases hsock : u.socketId = socketId
    · rw [if_pos hsock, List.drop_length] at hn
      cases hn
    · rw [if_neg hsock] at hn
      dsimp only at hn
      rw [List.drop_left, List.mem_singleton] at hn
      subst hn
      exact Or.inr ⟨u, List.mem_of_find?_eq_some hdup, hlive, rfl⟩
  | none =>
    rw [hdup] at hn
    dsimp only at hn
    cases hsel : selectCandidate s.records s.history userId topic difficulty with
    | some em =>
      rw [hsel] at hn
      dsimp only at hn
      obtain ⟨hmem, -, hlive⟩ := selectCandidate_props hsel
      cases hq : fetchQ difficulty topic with
      | none =>
        rw [hq] at hn
        dsimp only at hn
        rw [List.drop_left] at hn
        rcases List.mem_cons.mp hn with h | h
        · subst h
          exact Or.inl rfl
        · rw [List.mem_singleton] at h
          subst h
          exact Or.inr ⟨em, hmem, hlive, rfl⟩
      | some q =>
        rw [hq] at hn
        dsimp only at hn
        rw [List.drop_left] at hn
        rcases List.mem_cons.mp hn with h | h
        · subst h
          exact Or.inl rfl
        · rw [List.mem_singleton] at h
          subst h
          exact Or.inr ⟨em, hmem, hlive, rfl⟩
    | none =>
      rw [hsel] at hn
      dsimp only at hn
      rw [List.drop_length] at hn
      cases hn

/-- The confirm handler never touches an archived record. -/
theorem confirm_preserves_archived (userId : String) (s : MatchState)
    (hnd : (s.records.map (fun r => r.recordId)).Nodup) :
    preservesArchived (handleMatchingConfirm userId s) s := by
  intro r hr ha
  unfold handleMatchingConfirm
  cases hu : s.records.find? (pendingUser userId) with
  | none =>
    cases hm : s.records.find? (pendingMatched userId) with
    | none => exact hr
    | some mr =>
      dsimp only
      have hlive := pendingMatched_live (List.find?_some hm)
      exact mem_updateById_of_ne hr
        (ne_id_of_archived hnd hr (List.mem_of_find?_eq_some hm) ha hlive)
  | some ur =>
    have hlu := pendingUser_live (List.find?_some hu)
    have hneu := ne_id_of_archived hnd hr (List.mem_of_find?_eq_some hu) ha hlu
    cases hm : s.records.find? (pendingMatched userId) with
    | none =>
      dsimp only
      exact mem_updateById_of_ne hr hneu
    | some mr =>
      dsimp only
      have hlm := pendingMatched_live (List.find?_some hm)
      have hnem := ne_id_of_archived hnd hr (List.mem_of_find?_eq_some hm) ha hlm
      by_cases hc : ur.isConfirmed = true
      · rw [if_pos hc]
        exact hr
      · rw [if_neg hc]
        by_cases hmc : mr.isConfirmed = true
        · rw [if_pos hmc]
          exact mem_updateById_of_ne
            (mem_updateById_of_ne (mem_updateById_of_ne hr hneu) hnem) hneu
        · rw [if_neg hmc]
          exact mem_updateById_of_ne hr hneu

/-- The confirm handler notifies only sockets of records live beforehand. -/
theorem confirm_notifs_scoped (userId : String) (s : MatchState) :
    notifsScoped (handleMatchingConfirm userId s) s none := by
  intro n hn
  unfold handleMatchingConfirm at hn
  cases hu : s.records.find? (pendingUser userId) with
  | none =>
    rw [hu] at hn
    cases hm : s.records.find? (pendingMatched userId) with
    | none =>
      rw [hm] at hn
      dsimp only at hn
      rw [List.drop_length] at hn
      cases hn
    | some mr =>
      rw [hm] at hn
      dsimp only at hn
      rw [List.drop_left, List.mem_singleton] at hn
      subst hn
      exact Or.inr ⟨mr, List.mem_of_find?_eq_some hm,
        pendingMatched_live (List.find?_some hm), rfl⟩
  | some ur =>
    rw [hu] at hn
    have hulive := pendingUser_live (List.find?_some hu)
    have humem := List.mem_of_find?_eq_some hu
    cases hm : s.records.find? (pendingMatched userId) with
    | none =>
      rw [hm] at hn
      dsimp only at hn
      rw [List.drop_left, List.mem_singleton] at hn
      subst hn
      exact Or.inr ⟨ur, humem, hulive, rfl⟩
    | some mr =>
      rw [hm] at hn
      dsimp only at hn
      have hmlive := pendingMatched_live (List.find?_some hm)
      have hmmem := List.mem_of_find?_eq_some hm
      by_cases hc : ur.isConfirmed = true
      · rw [if_pos hc, List.drop_length] at hn
        cases hn
      · rw [if_neg hc] at hn
        by_cases hmc : mr.isConfirmed = true
        · rw [if_pos hmc] at hn
          dsimp only at hn
          rw [List.drop_left] at hn
          rcases List.mem_cons.mp hn with h | h
          · subst h
            exact Or.inr ⟨ur, humem, hulive, rfl⟩
          · rw [List.mem_singleton] at h
            subst h
            exact Or.inr ⟨mr, hmmem, hmlive, rfl⟩
        · rw [if_neg hmc] at hn
          dsimp only at hn
          rw [List.drop_left, List.mem_singleton] at hn
          subst hn
          exact Or.inr ⟨mr, hmmem, hmlive, rfl⟩

/-- The decline handler never touches an archived record. -/
theorem decline_preserves_archived (userId : String) (s : MatchState)
    (hnd : (s.records.map (fun r => r.recordId)).Nodup) :
    preservesArchived (handleMatchingDecline userId s) s := by
  intro r hr ha
  unfold handleMatchingDecline
  cases hu : s.records.find? (pendingUser userId) with
  | none =>
    cases hm : s.records.find? (pendingMatched userId) with
    | none => exact hr
    | some mr =>
      dsimp only
      exact mem_updateById_of_ne hr
        (ne_id_of_archived hnd hr (List.mem_of_find?_eq_some hm) ha
          (pendingMatched_live (List.find?_some hm)))
  | some ur =>
    have hneu := ne_id_of_archived hnd hr (List.mem_of_find?_eq_some hu) ha
      (pendingUser_live (List.find?_some hu))
    cases hm : s.records.find? (pendingMatched userId) with
    | none =>
      dsimp only
      exact mem_updateById_of_ne hr hneu
    | some mr =>
      dsimp only
      have hnem := ne_id_of_archived hnd hr (List.mem_of_find?_eq_some hm) ha
        (pendingMatched_live (List.find?_some hm))
      exact mem_updateById_of_ne (mem_updateById_of_ne hr hneu) hnem

/-- The decline handler notifies only sockets of records live beforehand. -/
theorem decline_notifs_scoped (userId : String) (s : MatchState) :
    notifsScoped (handleMatchingDecline userId s) s none := by
  intro n hn
  unfold handleMatchingDecline at hn
  cases hu : s.records.find? (pendingUser userId) with
  | none =>
    rw [hu] at hn
    cases hm : s.records.find? (pendingMatched userId) with
    | none =>
      rw [hm] at hn
      dsimp only at hn
      rw [List.drop_length] at hn
      cases hn
    | some mr =>
      rw [hm] at hn
      dsimp only at hn
      rw [List.drop_left] at hn
      have hfact : ∃ r0 ∈ s.records, r0.isArchived = false ∧ r0.socketId = mr.socketId :=
        ⟨mr, List.mem_of_find?_eq_some hm, pendingMatched_live (List.find?_some hm), rfl⟩
      rcases List.mem_cons.mp hn with h | h
      · subst h
        exact Or.inr hfact
      · rw [List.mem_singleton] at h
        subst h
        exact Or.inr hfact
  | some ur =>
    rw [hu] at hn
    have hufact : ∃ r0 ∈ s.records, r0.isArchived = false ∧ r0.socketId = ur.socketId :=
      ⟨ur, List.mem_of_find?_eq_some hu, pendingUser_live (List.find?_some hu), rfl⟩
    cases hm : s.records.find? (pendingMatched userId) with
    | none =>
      rw [hm] at hn
      dsimp only at hn
      rw [List.drop_left] at hn
      rcases List.mem_cons.mp hn with h | h
      · subst h
        exact Or.inr hufact
      · rw [List.mem_singleton] at h
        subst h
        exact Or.inr hufact
    | some mr =>
      rw [hm] at hn
      dsimp only at hn
      rw [List.drop_left] at hn
      have hmfact : ∃ r0 ∈ s.records, r0.isArchived = false ∧ r0.socketId = mr.socketId :=
        ⟨mr, List.mem_of_find?_eq_some hm, pendingMatched_live (List.find?_some hm), rfl⟩
      rcases List.mem_cons.mp hn with h | h
      · subst h
        exact Or.inr hmfact
      · rcases List.mem_cons.mp h with h2 | h2
        · subst h2
          exact Or.inr hufact
        · rw [List.mem_singleton] at h2
          subst h2
          exact Or.inr hmfact

/-- C10: archival is terminal across every handler — with unique record ids,
each handler leaves every archived record exactly as it was, notifies only the
incoming request's socket or sockets of records that were live beforehand, and
candidate selection never returns an archived record. -/
theorem claim_C10 (fetchQ : String → String → Option Nat)
    (newRoom userId topic difficulty socketId : String) (rid : Nat) (s : MatchState)
    (hnd : (s.records.map (fun r => r.recordId)).Nodup) :
    (preservesArchived (handleUserRequest fetchQ newRoom userId topic difficulty
        socketId s) s ∧
      notifsScoped (handleUserRequest fetchQ newRoom userId topic difficulty socketId s)
        s (some socketId)) ∧
    (preservesArchived (handleMatchingConfirm userId s) s ∧
      notifsScoped (handleMatchingConfirm userId s) s none) ∧
    (preservesArchived (handleMatchingDecline userId s) s ∧
      notifsScoped (handleMatchingDecline userId s) s none) ∧
    (preservesArchived (handleTimeout userId socketId s) s ∧
      notifsScoped (handleTimeout userId socketId s) s (some socketId)) ∧
    (preservesArchived (handleConfirmTimeout rid s) s ∧
      notifsScoped (handleConfirmTimeout rid s) s none) ∧
    (preservesArchived (handleDisconnected socketId s) s ∧
      notifsScoped (handleDisconnected socketId s) s none) ∧
    (∀ (records : List MatchRecord) (hist : List SessionHistoryRecord)
        (uid t d : String) (em : MatchRecord),
      selectCandidate records hist uid t d = some em → em.isArchived = false) :=
  ⟨⟨userRequest_preserves_archived fetchQ newRoom userId topic difficulty socketId s hnd,
    userRequest_notifs_scoped fetchQ newRoom userId topic difficulty socketId s⟩,
   ⟨confirm_preserves_archived userId s hnd, confirm_notifs_scoped userId s⟩,
   ⟨decline_preserves_archived userId s hnd, decline_notifs_scoped userId s⟩,
   ⟨timeout_preserves_archived userId socketId s hnd,
    timeout_notifs_scoped userId socketId s⟩,
   ⟨confirmTimeout_preserves_archived rid s hnd, confirmTimeout_notifs_scoped rid s⟩,
   ⟨disconnected_preserves_archived socketId s, disconnected_notifs_scoped socketId s⟩,
   fun _ _ _ _ _ _ h => (selectCandidate_props h).2.2⟩

/-- A reachable state with an archived record: B's waiting record archived by a
request timeout. -/
def stT : MatchState := handleTimeout ("B") ("sockB") stB

/-- C10 witness: in `stT` (B's record archived), every handler leaves the
archived record alone. -/
theorem claim_C10_witness :
    (stT.records.map (fun r => r.recordId)).Nodup ∧
    preservesArchived (handleUserRequest fqSome ("roomZ") ("A") ("algo") ("easy")
      ("sockA") stT) stT ∧
    preservesArchived (handleMatchingConfirm ("B") stT) stT ∧
    preservesArchived (handleDisconnected ("sockB") stT) stT :=
  ⟨by decide,
   (claim_C10 fqSome ("roomZ") ("A") ("algo") ("easy") ("sockA") 1 stT (by decide)).1.1,
   (claim_C10 fqSome ("roomZ") ("B") ("algo") ("easy") ("sockB") 1 stT (by decide)).2.1.1,
   (claim_C10 fqSome ("roomZ") ("B") ("algo") ("easy") ("sockB") 1 stT
     (by decide)).2.2.2.2.2.1.1⟩

end LuckyJinx
